import Mathlib

/-!
Shallow embedding of `modelforms.mixins.UniqueTogetherMixin.clean`
(django-modelforms).  The mixin restores validation of composite
uniqueness constraints (legacy `Meta.unique_together` tuples and modern
conditionless `UniqueConstraint` declarations) on model-backed forms.

ModelField names and field values are embedded as strings; a nullable value
is `Option Value` (`none` models both a missing attribute and a stored
NULL, which is how `getattr(obj, f, None)` and a `f=None` exact-match
filter behave).  The backing store is an explicit list of records, and
the ORM query `manager.exclude(pk=...).filter(**kw).exists()` becomes a
pure existence check over that list.
-/

abbrev FieldName := String
abbrev Value := String

/-- Association-list lookup keyed by field name (models Python dict
`get` / attribute lookup; first matching key wins). -/
def lookupField {α : Type} : List (FieldName × α) → FieldName → Option α
  | [], _ => none
  | (k, v) :: rest, f => if k = f then some v else lookupField rest f

/-- Parameters interpolated into a field-level "unique" error message
template (the `params` dict built at mixins.py lines 63-68).  Each
object-valued parameter is embedded by its display string. -/
structure MessageParams where
  model : String
  model_class : String
  model_name : String
  field_label : String
deriving DecidableEq

/-- Model field metadata: `verbose_name` and the `error_messages["unique"]`
template, embedded as a function from the interpolation parameters to the
rendered message (Python `%`-interpolation applied to a fixed template). -/
structure ModelField where
  verbose_name : String
  error_message_unique : MessageParams → String

/-- Django default template `%(model_name)s with this %(field_label)s
already exists.` -/
def defaultUniqueTemplate : MessageParams → String :=
  fun p => p.model_name ++ " with this " ++ p.field_label ++ " already exists."

/-- Embedding of `django.db.models.UniqueConstraint` as consumed by the
mixin: its `fields` list and the truthiness of its `condition` and
`expressions` attributes (mixins.py lines 39-42 test only truthiness). -/
structure UniqueConstraintMeta where
  fields : List FieldName
  condition : Bool
  expressions : Bool
deriving DecidableEq

/-- Entry of `Meta.constraints`: either a `UniqueConstraint` or some other
constraint class (e.g. `CheckConstraint`), which fails the
`isinstance(constraint, UniqueConstraint)` test at mixins.py line 36. -/
inductive Constraint where
  | unique (uc : UniqueConstraintMeta)
  | other
deriving DecidableEq

/-- Model `_meta` options consumed by the mixin: `verbose_name`,
`unique_together`, `constraints`, and `get_field` (total here because a
ModelForm field always names a model field).  `class_name` stands for the
display string of the model class (the `model_class` parameter). -/
structure ModelMeta where
  verbose_name : String
  class_name : String
  unique_together : List (List FieldName)
  constraints : List Constraint
  get_field : FieldName → ModelField

/-- Model instance wrapped by the form: optional primary key (`none` for
an unsaved instance), attribute values (`none` entries model NULL;
lookup misses model absent attributes), and its display string. -/
structure ModelInstance where
  pk : Option Nat
  attrs : List (FieldName × Option Value)
  repr : String

/-- Embedding of `getattr(instance, f, None)`: a missing attribute and a
NULL attribute both resolve to `none`. -/
def ModelInstance.getattr (i : ModelInstance) (f : FieldName) : Option Value :=
  match lookupField i.attrs f with
  | some v => v
  | none => none

/-- Persisted row of the backing store: primary key plus column values
(`none` models SQL NULL; a column absent from the list reads as NULL). -/
structure Record where
  pk : Nat
  attrs : List (FieldName × Option Value)
deriving DecidableEq

/-- Column read on a persisted row. -/
def Record.get (r : Record) (f : FieldName) : Option Value :=
  match lookupField r.attrs f with
  | some v => v
  | none => none

abbrev DB := List Record

/-- Embedding of `manager.exclude(pk=self.instance.pk)` (mixins.py line
55): rows whose primary key equals the given one are removed; when the
instance is unsaved (`pk = none`) no persisted row has a NULL key, so
nothing is excluded. -/
def excludePk (db : DB) (pk : Option Nat) : DB :=
  db.filter fun r => decide (some r.pk ≠ pk)

/-- Exact-match conjunction filter: the row matches the kwargs when every
named column equals the given (possibly NULL) value, as Django renders
`filter(**kw)` with `f=None` meaning `f IS NULL`. -/
def matchesKw (r : Record) (kw : List (FieldName × Option Value)) : Bool :=
  kw.all fun p => decide (r.get p.1 = p.2)

/-- Embedding of `queryset.filter(**kw).exists()` (mixins.py line 61). -/
def filterExists (db : DB) (kw : List (FieldName × Option Value)) : Bool :=
  db.any fun r => matchesKw r kw

/-- Bound form state as the mixin sees it: the model metadata, the
wrapped instance, the bound field names (`self.fields.keys()`), the
cleaned data mapping (a key is present exactly when the field survived
per-field validation; its value may still be `none`), the error dict
raised by `super().clean()` (empty list when it raised nothing), and the
display string of the form object itself. -/
structure Form where
  model : ModelMeta
  inst : ModelInstance
  fields : List FieldName
  cleaned_data : List (FieldName × Option Value)
  superErrors : List (FieldName × List String)
  repr : String

/-- Mixins.py lines 28-44: `unique_field_sets`, the legacy
`unique_together` tuples followed by the field lists of those
`UniqueConstraint` entries with falsy `condition`, falsy `expressions`
and a non-empty `fields` list. -/
def applicableFields : Constraint → Option (List FieldName)
  | Constraint.unique uc =>
      if uc.condition = false ∧ uc.expressions = false ∧ uc.fields ≠ [] then
        some uc.fields
      else none
  | Constraint.other => none

def uniqueFieldSets (opts : ModelMeta) : List (List FieldName) :=
  opts.unique_together ++ opts.constraints.filterMap applicableFields

/-- Set insertion used to embed Python `set.update` (dedup, keep first
insertion order; a Python set carries no order the code relies on). -/
def insertField (acc : List FieldName) (x : FieldName) : List FieldName :=
  if x ∈ acc then acc else acc ++ [x]

/-- Mixins.py lines 49-53, value side: the merged group of a field is the
union of every unique field set that contains it (`setdefault(...,
set()).update(together)`). -/
def mergedFields (sets : List (List FieldName)) (f : FieldName) : List FieldName :=
  sets.foldl (fun acc g => if f ∈ g then g.foldl insertField acc else acc) []

/-- Key-insertion step of the `unique_together` dict: a form field
becomes a key the first time a unique field set containing it is seen. -/
def participateStep (g : List FieldName) (acc2 : List FieldName)
    (f : FieldName) : List FieldName :=
  if f ∈ g ∧ f ∉ acc2 then acc2 ++ [f] else acc2

/-- Mixins.py lines 49-53, key side: the form fields that belong to at
least one unique field set, in first-insertion order of the
`unique_together` dict. -/
def participatingFields (formFields : List FieldName)
    (sets : List (List FieldName)) : List FieldName :=
  sets.foldl (fun acc g => formFields.foldl (participateStep g) acc) []

/-- Mixins.py line 58: `self.cleaned_data.get(f, getattr(self.instance,
f, None))` — the cleaned value when the key is present, else the
instance attribute, else NULL. -/
def resolvedValue (form : Form) (f : FieldName) : Option Value :=
  match lookupField form.cleaned_data f with
  | some v => v
  | none => form.inst.getattr f

/-- Mixins.py lines 57-60: the filter kwargs for one triggering field —
every field of its merged group paired with its resolved value. -/
def lookupKw (form : Form) (fieldName : FieldName) : List (FieldName × Option Value) :=
  (mergedFields (uniqueFieldSets form.model) fieldName).map
    fun f => (f, resolvedValue form f)

/-- Mixins.py lines 62-69: the appended message, i.e. the "unique"
template of the triggering field interpolated with `"model": self` (the
form object), `"model_class"`, the capfirst model name and the field
label. -/
def capfirst (s : String) : String :=
  match s.data with
  | [] => s
  | c :: cs => String.mk (Char.toUpper c :: cs)

def uniqueMessage (form : Form) (field : ModelField) : String :=
  field.error_message_unique
    { model := form.repr
      model_class := form.model.class_name
      model_name := capfirst form.model.verbose_name
      field_label := field.verbose_name }

/-- Mixins.py line 70: `errors.setdefault(field_name, []).append(message)`. -/
def addError (errors : List (FieldName × List String)) (f : FieldName)
    (msg : String) : List (FieldName × List String) :=
  if errors.any fun p => decide (p.1 = f) then
    errors.map fun p => if p.1 = f then (p.1, p.2 ++ [msg]) else p
  else errors ++ [(f, [msg])]

/-- Body of the loop at mixins.py lines 56-70, instrumented with a query
counter: each iteration issues exactly one read-only `.exists()` query,
and on a hit appends the unique message for the triggering field. -/
def cleanStep (queryset : DB) (form : Form)
    (acc : List (FieldName × List String) × Nat) (fieldName : FieldName) :
    List (FieldName × List String) × Nat :=
  if filterExists queryset (lookupKw form fieldName) then
    (addError acc.1 fieldName (uniqueMessage form (form.model.get_field fieldName)),
      acc.2 + 1)
  else (acc.1, acc.2 + 1)

/-- Embedding of `UniqueTogetherMixin.clean` up to the final raise: the
error dict accumulated from the captured `super().clean()` errors and
the uniqueness loop, paired with the number of existence queries issued. -/
def cleanRun (form : Form) (db : DB) : List (FieldName × List String) × Nat :=
  (participatingFields form.fields (uniqueFieldSets form.model)).foldl
    (cleanStep (excludePk db form.inst.pk) form)
    (form.superErrors, 0)

def cleanErrors (form : Form) (db : DB) : List (FieldName × List String) :=
  (cleanRun form db).1

/-- Mixins.py lines 72-73: raise `ValidationError(errors)` exactly when
the accumulated dict is non-empty, else fall through (return `None`). -/
def clean (form : Form) (db : DB) : Except (List (FieldName × List String)) Unit :=
  if cleanErrors form db = [] then Except.ok () else Except.error (cleanErrors form db)

/-- Trace of the uniqueness violations the loop records, in loop order:
one `(field, message)` pair per triggering field whose existence query
hits. -/
def violationsOf (queryset : DB) (form : Form) (l : List FieldName) :
    List (FieldName × String) :=
  l.filterMap fun fieldName =>
    if filterExists queryset (lookupKw form fieldName) then
      some (fieldName, uniqueMessage form (form.model.get_field fieldName))
    else none

def uniqueViolations (form : Form) (db : DB) : List (FieldName × String) :=
  violationsOf (excludePk db form.inst.pk) form
    (participatingFields form.fields (uniqueFieldSets form.model))

/-- Folding `addError` over a violation trace. -/
def applyMessages (errors : List (FieldName × List String))
    (tr : List (FieldName × String)) : List (FieldName × List String) :=
  tr.foldl (fun acc p => addError acc p.1 p.2) errors

/-!
Concrete fixtures, mirroring the repository test suite
(`src/tests/models.py`, `src/tests/tests.py`): the `Book` model with
legacy `unique_together = (("title", "author"),)`, the `Magazine` model
with a modern `UniqueConstraint(fields=["title", "publisher"])`, and two
small synthetic models used to probe the merge rule, the NULL fallback
and the message interpolation.  Foreign keys are embedded by the string
form of the referenced primary key.
-/

def bookMeta : ModelMeta :=
  { verbose_name := "book"
    class_name := "Book"
    unique_together := [["title", "author"]]
    constraints := []
    get_field := fun f => { verbose_name := f, error_message_unique := defaultUniqueTemplate } }

def book1 : Record :=
  { pk := 1
    attrs := [("title", some "The Bourne Identity"), ("author", some "1"), ("rrp", some "9.20")] }

def book2 : Record :=
  { pk := 2
    attrs := [("title", some "The Bourne Supremacy"), ("author", some "1"), ("rrp", some "10.50")] }

def bookDB : DB := [book1, book2]

def book2Inst : ModelInstance :=
  { pk := some 2
    attrs := [("title", some "The Bourne Supremacy"), ("author", some "1"), ("rrp", some "10.50")]
    repr := "Book object (2)" }

/-- Form from `test_title_clash`: fields `("title", "rrp")`, editing
`book2`, submitted title clashing with `book1` and a valid rrp. -/
def bourneForm : Form :=
  { model := bookMeta
    inst := book2Inst
    fields := ["title", "rrp"]
    cleaned_data := [("title", some "The Bourne Identity"), ("rrp", some "15.95")]
    superErrors := []
    repr := "BookForm bound" }

/-- Form from `test_invalid_rrp_and_title_clash`: the rrp failed
per-field validation (its key is absent from the cleaned data and its
message arrives through the captured super().clean errors) while the
submitted title clashes with `book1`. -/
def bourneBadRrpForm : Form :=
  { model := bookMeta
    inst := book2Inst
    fields := ["title", "rrp"]
    cleaned_data := [("title", some "The Bourne Identity")]
    superErrors :=
      [("rrp", ["Ensure that there are no more than 3 digits before the decimal point."])]
    repr := "BookForm bound" }

/-- Form from `test_same_instance_update` shape: `book2` resubmitting its
own stored values; only `book2` itself matches the merged lookup. -/
def bourneSelfForm : Form :=
  { model := bookMeta
    inst := book2Inst
    fields := ["title", "rrp"]
    cleaned_data := [("title", some "The Bourne Supremacy"), ("rrp", some "10.50")]
    superErrors := []
    repr := "BookForm bound" }

def magMeta : ModelMeta :=
  { verbose_name := "magazine"
    class_name := "Magazine"
    unique_together := []
    constraints :=
      [Constraint.unique { fields := ["title", "publisher"], condition := false, expressions := false }]
    get_field := fun f => { verbose_name := f, error_message_unique := defaultUniqueTemplate } }

def magazine1 : Record :=
  { pk := 1
    attrs := [("title", some "Vogue"), ("publisher", some "1"), ("issue_number", some "1")] }

def magazine2 : Record :=
  { pk := 2
    attrs := [("title", some "GQ"), ("publisher", some "1"), ("issue_number", some "1")] }

def magDB : DB := [magazine1, magazine2]

/-- Form from `test_clash_with_all_constraint_fields_in_form`: every
constraint field is on the form, so both `title` and `publisher`
participate and the loop issues two existence queries. -/
def magAllFieldsForm : Form :=
  { model := magMeta
    inst := { pk := some 2
              attrs := [("title", some "GQ"), ("publisher", some "1"), ("issue_number", some "1")]
              repr := "Magazine object (2)" }
    fields := ["title", "publisher", "issue_number"]
    cleaned_data :=
      [("title", some "Vogue"), ("publisher", some "1"), ("issue_number", some "2")]
    superErrors := []
    repr := "MagazineForm bound" }

/-- Synthetic model with the overlapping groups `{A, B}` and `{B, C}`
used to settle the transitive-merge question. -/
def abcMeta : ModelMeta :=
  { verbose_name := "thing"
    class_name := "Thing"
    unique_together := [["A", "B"], ["B", "C"]]
    constraints := []
    get_field := fun f => { verbose_name := f, error_message_unique := defaultUniqueTemplate } }

def abcRecord : Record :=
  { pk := 1
    attrs := [("A", some "1"), ("B", some "2"), ("C", some "99")] }

/-- Unsaved instance whose `C` attribute (`"0"`) disagrees with the
stored row (`"99"`); the form exposes only `A`.  If the check triggered
by `A` filtered on the resolved value of `C`, the lookup would miss. -/
def abcFormA : Form :=
  { model := abcMeta
    inst := { pk := none, attrs := [("B", some "2"), ("C", some "0")], repr := "Thing object (None)" }
    fields := ["A"]
    cleaned_data := [("A", some "1")]
    superErrors := []
    repr := "ThingForm bound" }

/-- Form exposing only `B` (a member of both groups), with instance
attributes matching the stored row on `A` and `C`. -/
def abcFormBHit : Form :=
  { model := abcMeta
    inst := { pk := none, attrs := [("A", some "1"), ("C", some "99")], repr := "Thing object (None)" }
    fields := ["B"]
    cleaned_data := [("B", some "2")]
    superErrors := []
    repr := "ThingForm bound" }

/-- Same as `abcFormBHit` except that the resolved value of the
merged-in field `C` now disagrees with the stored row. -/
def abcFormBMiss : Form :=
  { model := abcMeta
    inst := { pk := none, attrs := [("A", some "1"), ("C", some "4")], repr := "Thing object (None)" }
    fields := ["B"]
    cleaned_data := [("B", some "2")]
    superErrors := []
    repr := "ThingForm bound" }

/-- Synthetic model with group `{A, B}` where the form exposes only `A`
and neither the cleaned data nor the instance can resolve `B`. -/
def nullMeta : ModelMeta :=
  { verbose_name := "gadget"
    class_name := "Gadget"
    unique_together := [["A", "B"]]
    constraints := []
    get_field := fun f => { verbose_name := f, error_message_unique := defaultUniqueTemplate } }

def nullRecord : Record := { pk := 1, attrs := [("A", some "1"), ("B", none)] }

def nullDB : DB := [nullRecord]

def nullForm : Form :=
  { model := nullMeta
    inst := { pk := none, attrs := [], repr := "Gadget object (None)" }
    fields := ["A"]
    cleaned_data := [("A", some "1")]
    superErrors := []
    repr := "GadgetForm bound" }

/-- Synthetic model whose `unique` message template projects the `model`
interpolation parameter, making it observable which object the code
passes under that key. -/
def probeMeta : ModelMeta :=
  { verbose_name := "widget"
    class_name := "Widget"
    unique_together := [["A"]]
    constraints := []
    get_field := fun f => { verbose_name := f, error_message_unique := fun p => p.model } }

def probeDB : DB := [{ pk := 1, attrs := [("A", some "1")] }]

def probeForm : Form :=
  { model := probeMeta
    inst := { pk := none, attrs := [], repr := "WIDGET_INSTANCE" }
    fields := ["A"]
    cleaned_data := [("A", some "1")]
    superErrors := []
    repr := "WIDGET_FORM" }

/-- Modelled from the spec: the interpolation the spec describes, with
the entity instance (not the form object) supplied under the `model`
parameter.  Compared against `uniqueMessage`, which embeds the source
(`"model": self`, the form). -/
def claimedUniqueMessage (form : Form) (field : ModelField) : String :=
  field.error_message_unique
    { model := form.inst.repr
      model_class := form.model.class_name
      model_name := capfirst form.model.verbose_name
      field_label := field.verbose_name }

/-- Dropping from `Meta.constraints` exactly the `UniqueConstraint`
entries that carry a truthy condition or truthy expressions, i.e. the
constraints the mixin is specified to skip. -/
def dropConditional (opts : ModelMeta) : ModelMeta :=
  { opts with
      constraints := opts.constraints.filter fun c =>
        match c with
        | Constraint.unique uc => !uc.condition && !uc.expressions
        | Constraint.other => true }

/-!
Helper lemmas about the embedding.  These characterise the derived
field-to-group index, the instrumented clean loop and the error
accumulator; the claim theorems below are stated in terms of them.
-/

theorem mem_insertField (acc : List FieldName) (x z : FieldName) :
    z ∈ insertField acc x ↔ z ∈ acc ∨ z = x := by
  unfold insertField
  split
  · rename_i h
    constructor
    · exact fun hz => Or.inl hz
    · rintro (hz | rfl)
      · exact hz
      · exact h
  · simp

theorem mem_foldl_insertField (g : List FieldName) :
    ∀ (acc : List FieldName) (z : FieldName),
      z ∈ g.foldl insertField acc ↔ z ∈ acc ∨ z ∈ g := by
  induction g with
  | nil => simp
  | cons y gs ih =>
    intro acc z
    simp only [List.foldl_cons]
    rw [ih, mem_insertField]
    simp [List.mem_cons, or_assoc]

theorem mem_mergedFields_aux (f : FieldName) (sets : List (List FieldName)) :
    ∀ (acc : List FieldName) (z : FieldName),
      z ∈ sets.foldl (fun acc g => if f ∈ g then g.foldl insertField acc else acc) acc ↔
        z ∈ acc ∨ ∃ g, g ∈ sets ∧ f ∈ g ∧ z ∈ g := by
  induction sets with
  | nil => simp
  | cons g gs ih =>
    intro acc z
    simp only [List.foldl_cons]
    by_cases h : f ∈ g
    · rw [if_pos h, ih, mem_foldl_insertField]
      simp only [List.mem_cons]
      constructor
      · rintro ((hz | hz) | ⟨g2, hg2, hf2, hz2⟩)
        · exact Or.inl hz
        · exact Or.inr ⟨g, Or.inl rfl, h, hz⟩
        · exact Or.inr ⟨g2, Or.inr hg2, hf2, hz2⟩
      · rintro (hz | ⟨g2, rfl | hg2, hf2, hz2⟩)
        · exact Or.inl (Or.inl hz)
        · exact Or.inl (Or.inr hz2)
        · exact Or.inr ⟨g2, hg2, hf2, hz2⟩
    · rw [if_neg h, ih]
      simp only [List.mem_cons]
      constructor
      · rintro (hz | ⟨g2, hg2, hf2, hz2⟩)
        · exact Or.inl hz
        · exact Or.inr ⟨g2, Or.inr hg2, hf2, hz2⟩
      · rintro (hz | ⟨g2, rfl | hg2, hf2, hz2⟩)
        · exact Or.inl hz
        · exact absurd hf2 h
        · exact Or.inr ⟨g2, hg2, hf2, hz2⟩

theorem mem_mergedFields (sets : List (List FieldName)) (f z : FieldName) :
    z ∈ mergedFields sets f ↔ ∃ g, g ∈ sets ∧ f ∈ g ∧ z ∈ g := by
  unfold mergedFields
  rw [mem_mergedFields_aux]
  simp

theorem mem_participateStep (g acc : List FieldName) (f z : FieldName) :
    z ∈ participateStep g acc f ↔ z ∈ acc ∨ (z = f ∧ f ∈ g) := by
  unfold participateStep
  split
  · rename_i h
    simp only [List.mem_append, List.mem_singleton]
    constructor
    · rintro (hz | rfl)
      · exact Or.inl hz
      · exact Or.inr ⟨rfl, h.1⟩
    · rintro (hz | ⟨rfl, _⟩)
      · exact Or.inl hz
      · exact Or.inr rfl
  · rename_i h
    constructor
    · exact fun hz => Or.inl hz
    · rintro (hz | ⟨rfl, hg⟩)
      · exact hz
      · by_cases ha : z ∈ acc
        · exact ha
        · exact absurd ⟨hg, ha⟩ h

theorem mem_foldl_participateStep (g : List FieldName) (ff : List FieldName) :
    ∀ (acc : List FieldName) (z : FieldName),
      z ∈ ff.foldl (participateStep g) acc ↔ z ∈ acc ∨ (z ∈ ff ∧ z ∈ g) := by
  induction ff with
  | nil => simp
  | cons f fs ih =>
    intro acc z
    simp only [List.foldl_cons]
    rw [ih, mem_participateStep]
    simp only [List.mem_cons]
    constructor
    · rintro ((hz | ⟨rfl, hg⟩) | ⟨hz, hg⟩)
      · exact Or.inl hz
      · exact Or.inr ⟨Or.inl rfl, hg⟩
      · exact Or.inr ⟨Or.inr hz, hg⟩
    · rintro (hz | ⟨rfl | hz, hg⟩)
      · exact Or.inl (Or.inl hz)
      · exact Or.inl (Or.inr ⟨rfl, hg⟩)
      · exact Or.inr ⟨hz, hg⟩

theorem mem_participatingFields_aux (ff : List FieldName)
    (sets : List (List FieldName)) :
    ∀ (acc : List FieldName) (z : FieldName),
      z ∈ sets.foldl (fun acc g => ff.foldl (participateStep g) acc) acc ↔
        z ∈ acc ∨ (z ∈ ff ∧ ∃ g, g ∈ sets ∧ z ∈ g) := by
  induction sets with
  | nil => simp
  | cons g gs ih =>
    intro acc z
    simp only [List.foldl_cons]
    rw [ih, mem_foldl_participateStep]
    simp only [List.mem_cons]
    constructor
    · rintro ((hz | ⟨hf, hg⟩) | ⟨hf, g2, hg2, hz2⟩)
      · exact Or.inl hz
      · exact Or.inr ⟨hf, g, Or.inl rfl, hg⟩
      · exact Or.inr ⟨hf, g2, Or.inr hg2, hz2⟩
    · rintro (hz | ⟨hf, g2, rfl | hg2, hz2⟩)
      · exact Or.inl (Or.inl hz)
      · exact Or.inl (Or.inr ⟨hf, hz2⟩)
      · exact Or.inr ⟨hf, g2, hg2, hz2⟩

theorem mem_participatingFields (ff : List FieldName)
    (sets : List (List FieldName)) (z : FieldName) :
    z ∈ participatingFields ff sets ↔ z ∈ ff ∧ ∃ g, g ∈ sets ∧ z ∈ g := by
  unfold participatingFields
  rw [mem_participatingFields_aux]
  simp

theorem nodup_participateStep (g acc : List FieldName) (f : FieldName)
    (h : acc.Nodup) : (participateStep g acc f).Nodup := by
  unfold participateStep
  split
  · rename_i hc
    rw [List.nodup_append]
    exact ⟨h, List.nodup_singleton f, by simpa using hc.2⟩
  · exact h

theorem nodup_foldl_participateStep (g : List FieldName) (ff : List FieldName) :
    ∀ acc : List FieldName, acc.Nodup → (ff.foldl (participateStep g) acc).Nodup := by
  induction ff with
  | nil => exact fun acc h => h
  | cons f fs ih =>
    intro acc h
    simp only [List.foldl_cons]
    exact ih _ (nodup_participateStep g acc f h)

theorem nodup_participatingFields (ff : List FieldName)
    (sets : List (List FieldName)) : (participatingFields ff sets).Nodup := by
  unfold participatingFields
  have haux : ∀ (ss : List (List FieldName)) (acc : List FieldName), acc.Nodup →
      (ss.foldl (fun acc g => ff.foldl (participateStep g) acc) acc).Nodup := by
    intro ss
    induction ss with
    | nil => exact fun acc h => h
    | cons g gs ih =>
      intro acc h
      simp only [List.foldl_cons]
      exact ih _ (nodup_foldl_participateStep g ff acc h)
  exact haux sets [] List.nodup_nil

theorem filterExists_iff (db : DB) (kw : List (FieldName × Option Value)) :
    filterExists db kw = true ↔ ∃ r, r ∈ db ∧ matchesKw r kw = true := by
  simp [filterExists, List.any_eq_true]

theorem mem_excludePk (db : DB) (pk : Option Nat) (r : Record) :
    r ∈ excludePk db pk ↔ r ∈ db ∧ some r.pk ≠ pk := by
  simp [excludePk, List.mem_filter]

theorem excludePk_none (db : DB) : excludePk db none = db := by
  rw [excludePk, List.filter_eq_self]
  intro r _
  simp

theorem matchesKw_get (r : Record) (kw : List (FieldName × Option Value))
    (f : FieldName) (v : Option Value)
    (hm : matchesKw r kw = true) (hin : (f, v) ∈ kw) : r.get f = v := by
  rw [matchesKw, List.all_eq_true] at hm
  simpa using hm (f, v) hin

theorem foldl_cleanStep (qs : DB) (form : Form) (l : List FieldName) :
    ∀ (acc : List (FieldName × List String)) (n : Nat),
      l.foldl (cleanStep qs form) (acc, n) =
        (applyMessages acc (violationsOf qs form l), n + l.length) := by
  induction l with
  | nil => intro acc n; simp [violationsOf, applyMessages]
  | cons f fs ih =>
    intro acc n
    simp only [List.foldl_cons]
    by_cases h : filterExists qs (lookupKw form f) = true
    · have hstep : cleanStep qs form (acc, n) f =
          (addError acc f (uniqueMessage form (form.model.get_field f)), n + 1) := by
        simp [cleanStep, h]
      rw [hstep, ih]
      have hv : violationsOf qs form (f :: fs) =
          (f, uniqueMessage form (form.model.get_field f)) :: violationsOf qs form fs := by
        simp [violationsOf, List.filterMap_cons, h]
      rw [hv]
      have ha : applyMessages acc
          ((f, uniqueMessage form (form.model.get_field f)) :: violationsOf qs form fs) =
          applyMessages (addError acc f (uniqueMessage form (form.model.get_field f)))
            (violationsOf qs form fs) := rfl
      rw [ha]
      simp only [List.length_cons, Prod.mk.injEq]
      exact ⟨trivial, by omega⟩
    · rw [Bool.not_eq_true] at h
      have hstep : cleanStep qs form (acc, n) f = (acc, n + 1) := by
        simp [cleanStep, h]
      rw [hstep, ih]
      have hv : violationsOf qs form (f :: fs) = violationsOf qs form fs := by
        simp [violationsOf, List.filterMap_cons, h]
      rw [hv]
      simp only [List.length_cons, Prod.mk.injEq]
      exact ⟨trivial, by omega⟩

theorem cleanErrors_eq_applyMessages (form : Form) (db : DB) :
    cleanErrors form db =
      applyMessages form.superErrors (uniqueViolations form db) := by
  unfold cleanErrors cleanRun uniqueViolations
  rw [foldl_cleanStep]

theorem cleanRun_queries (form : Form) (db : DB) :
    (cleanRun form db).2 =
      (participatingFields form.fields (uniqueFieldSets form.model)).length := by
  unfold cleanRun
  rw [foldl_cleanStep]
  simp

theorem violationsOf_map_fst_sublist (qs : DB) (form : Form) :
    ∀ l : List FieldName, ((violationsOf qs form l).map Prod.fst).Sublist l := by
  intro l
  induction l with
  | nil => simp [violationsOf]
  | cons f fs ih =>
    by_cases h : filterExists qs (lookupKw form f) = true
    · have hv : violationsOf qs form (f :: fs) =
          (f, uniqueMessage form (form.model.get_field f)) :: violationsOf qs form fs := by
        simp [violationsOf, List.filterMap_cons, h]
      rw [hv]
      simpa using List.Sublist.cons₂ f ih
    · rw [Bool.not_eq_true] at h
      have hv : violationsOf qs form (f :: fs) = violationsOf qs form fs := by
        simp [violationsOf, List.filterMap_cons, h]
      rw [hv]
      exact List.Sublist.cons f ih

theorem violationsOf_eq_nil (qs : DB) (form : Form) (l : List FieldName)
    (h : ∀ f ∈ l, filterExists qs (lookupKw form f) = false) :
    violationsOf qs form l = [] := by
  unfold violationsOf
  rw [List.filterMap_eq_nil_iff]
  intro f hf
  rw [h f hf]
  simp

theorem mem_keys_addError (e : List (FieldName × List String)) (f : FieldName)
    (m : String) (z : FieldName)
    (hz : z ∈ (addError e f m).map Prod.fst) : z ∈ e.map Prod.fst ∨ z = f := by
  unfold addError at hz
  split at hz
  · left
    rw [List.map_map] at hz
    rcases List.mem_map.1 hz with ⟨q, hq, hqz⟩
    refine List.mem_map.2 ⟨q, hq, ?_⟩
    by_cases hp : q.1 = f
    · simpa [Function.comp, hp] using hqz
    · simpa [Function.comp, hp] using hqz
  · rw [List.map_append] at hz
    rcases List.mem_append.1 hz with h1 | h2
    · exact Or.inl h1
    · right
      simpa using h2

theorem mem_keys_applyMessages (tr : List (FieldName × String)) :
    ∀ (e : List (FieldName × List String)) (z : FieldName),
      z ∈ (applyMessages e tr).map Prod.fst →
        z ∈ e.map Prod.fst ∨ z ∈ tr.map Prod.fst := by
  induction tr with
  | nil => intro e z hz; exact Or.inl hz
  | cons p tr ih =>
    intro e z hz
    have := ih (addError e p.1 p.2) z hz
    rcases this with h1 | h2
    · rcases mem_keys_addError e p.1 p.2 z h1 with h3 | h3
      · exact Or.inl h3
      · exact Or.inr (by simp [h3])
    · exact Or.inr (by simp [h2])

theorem filterMap_applicable_dropConditional (cs : List Constraint) :
    (cs.filter fun c =>
        match c with
        | Constraint.unique uc => !uc.condition && !uc.expressions
        | Constraint.other => true).filterMap applicableFields =
      cs.filterMap applicableFields := by
  induction cs with
  | nil => rfl
  | cons c cs ih =>
    cases c with
    | unique uc =>
      cases hc : uc.condition <;> cases he : uc.expressions <;>
        simp [List.filter_cons, List.filterMap_cons, applicableFields, hc, he, ih]
    | other =>
      simp [List.filter_cons, List.filterMap_cons, applicableFields, ih]

theorem uniqueFieldSets_dropConditional (opts : ModelMeta) :
    uniqueFieldSets (dropConditional opts) = uniqueFieldSets opts := by
  unfold uniqueFieldSets dropConditional
  simp only
  rw [filterMap_applicable_dropConditional]

theorem cleanErrors_congr (form2 form : Form) (db : DB)
    (h1 : uniqueFieldSets form2.model = uniqueFieldSets form.model)
    (h2 : form2.model.get_field = form.model.get_field)
    (h3 : form2.model.verbose_name = form.model.verbose_name)
    (h4 : form2.model.class_name = form.model.class_name)
    (h5 : form2.inst = form.inst) (h6 : form2.fields = form.fields)
    (h7 : form2.cleaned_data = form.cleaned_data)
    (h8 : form2.superErrors = form.superErrors)
    (h9 : form2.repr = form.repr) :
    cleanErrors form2 db = cleanErrors form db := by
  unfold cleanErrors cleanRun cleanStep lookupKw uniqueMessage resolvedValue
    ModelInstance.getattr
  simp only [h1, h2, h3, h4, h5, h6, h7, h8, h9]

/-!
Claim theorems.  Each claim of the specification is settled against the
embedding above; counterexample theorems exhibit concrete runs of the
embedded `clean` on which a claim fails as stated.
-/

/-- Claim C1, counterexample: with the groups `{A, B}` and `{B, C}` the
check triggered by the form field `A` does NOT filter on the resolved
value of `C` — `C` is not in the merged group of `A`, and the lookup
hits (raising the error) even though the resolved value of `C` (`"0"`)
disagrees with the stored row (`"99"`), where the claim predicts the
changed merged-in value would turn the hit into a miss. -/
theorem c1_counterexample :
    "C" ∉ mergedFields (uniqueFieldSets abcMeta) "A"
    ∧ mergedFields (uniqueFieldSets abcMeta) "A" = ["A", "B"]
    ∧ resolvedValue abcFormA "C" = some "0"
    ∧ abcRecord.get "C" = some "99"
    ∧ cleanErrors abcFormA [abcRecord] =
        [("A", ["Thing with this A already exists."])] := by
  refine ⟨by decide, by decide, by decide, by decide, by decide⟩

/-- Claim C1, amended: the collision lookup of a bound form field
filters on the union of all fields across exactly the groups that
contain that field (a one-step union, not a transitive closure).  With
groups `{A, B}` and `{B, C}`, the check triggered by `A` filters on
`{A, B}` only, while the check triggered by `B` filters on `{A, B, C}`;
for a field of the merged group (here `C` for the check on `B`),
changing its resolved value can turn a collision hit into a miss. -/
theorem c1_merged_group_is_union_of_containing_groups :
    (∀ (sets : List (List FieldName)) (f z : FieldName),
        z ∈ mergedFields sets f ↔ ∃ g, g ∈ sets ∧ f ∈ g ∧ z ∈ g)
    ∧ mergedFields (uniqueFieldSets abcMeta) "A" = ["A", "B"]
    ∧ mergedFields (uniqueFieldSets abcMeta) "B" = ["A", "B", "C"]
    ∧ cleanErrors abcFormBHit [abcRecord] =
        [("B", ["Thing with this B already exists."])]
    ∧ resolvedValue abcFormBHit "C" = some "99"
    ∧ resolvedValue abcFormBMiss "C" = some "4"
    ∧ cleanErrors abcFormBMiss [abcRecord] = [] := by
  exact ⟨mem_mergedFields, by decide, by decide, by decide, by decide,
    by decide, by decide⟩

/-- Claim C2: the collision query excludes the record identified by the
primary key of the wrapped instance, so when the only records matching a
merged lookup are the instance itself, no uniqueness error is produced;
for an unsaved instance (`pk = none`) the exclusion removes nothing. -/
theorem c2_self_exclusion :
    (∀ (form : Form) (db : DB) (n : Nat),
        form.inst.pk = some n →
        (∀ r ∈ db, ∀ f ∈ participatingFields form.fields (uniqueFieldSets form.model),
            matchesKw r (lookupKw form f) = true → r.pk = n) →
        cleanErrors form db = form.superErrors)
    ∧ (∀ db : DB, excludePk db none = db) := by
  constructor
  · intro form db n hpk honly
    rw [cleanErrors_eq_applyMessages]
    have hviol : uniqueViolations form db = [] := by
      apply violationsOf_eq_nil
      intro f hf
      by_contra hx
      rw [Bool.not_eq_false] at hx
      obtain ⟨r, hr, hm⟩ := (filterExists_iff _ _).1 hx
      rw [mem_excludePk] at hr
      apply hr.2
      rw [hpk]
      exact congrArg some (honly r hr.1 f hf hm)
    rw [hviol]
    rfl
  · exact excludePk_none

/-- Claim C2, witness: `book2` resubmitting its own stored title and a
fresh rrp; the only row matching the merged `(title, author)` lookup is
`book2` itself, and the clean step reports no error. -/
theorem c2_self_exclusion_witness :
    cleanErrors bourneSelfForm bookDB = bourneSelfForm.superErrors :=
  c2_self_exclusion.1 bourneSelfForm bookDB 2 rfl (by decide)

/-- Claim C3: the unique field sets considered are exactly the legacy
`unique_together` tuples plus the field lists of those
`UniqueConstraint` entries with falsy condition, falsy expressions and a
non-empty field list; and dropping every condition- or
expression-carrying `UniqueConstraint` from the model changes nothing
about the produced errors, so the validator never reports a violation
based on such a constraint. -/
theorem c3_applicable_constraints :
    (∀ (opts : ModelMeta) (s : List FieldName),
        s ∈ uniqueFieldSets opts ↔
          s ∈ opts.unique_together ∨
            ∃ uc : UniqueConstraintMeta,
              Constraint.unique uc ∈ opts.constraints ∧
              uc.condition = false ∧ uc.expressions = false ∧
              uc.fields ≠ [] ∧ s = uc.fields)
    ∧ (∀ (form : Form) (db : DB),
        cleanErrors { form with model := dropConditional form.model } db =
          cleanErrors form db) := by
  constructor
  · intro opts s
    unfold uniqueFieldSets
    rw [List.mem_append, List.mem_filterMap]
    constructor
    · rintro (h | ⟨c, hc, hs⟩)
      · exact Or.inl h
      · cases c with
        | unique uc =>
          right
          simp only [applicableFields] at hs
          split at hs
          · rename_i hcond
            exact ⟨uc, hc, hcond.1, hcond.2.1, hcond.2.2, (Option.some_inj.1 hs).symm⟩
          · exact absurd hs (by simp)
        | other => exact absurd hs (by simp [applicableFields])
    · rintro (h | ⟨uc, hc, hcond, hexpr, hne, rfl⟩)
      · exact Or.inl h
      · right
        refine ⟨Constraint.unique uc, hc, ?_⟩
        simp only [applicableFields]
        rw [if_pos ⟨hcond, hexpr, hne⟩]
  · intro form db
    exact cleanErrors_congr _ form db
      (uniqueFieldSets_dropConditional form.model) rfl rfl rfl rfl rfl rfl rfl rfl

/-- Claim C4: the value used for a field of a merged group is the
cleaned-data value when that key is present, otherwise the attribute
value of the wrapped instance, otherwise null; and in the concrete
subset-form scenario (form fields `title, rrp` over the Book model) the
off-form constraint field `author` takes the instance value and the
collision is still detected. -/
theorem c4_value_resolution :
    (∀ (form : Form) (f : FieldName) (v : Option Value),
        (lookupField form.cleaned_data f = some v → resolvedValue form f = v)
        ∧ (lookupField form.cleaned_data f = none →
            resolvedValue form f = form.inst.getattr f)
        ∧ (lookupField form.cleaned_data f = none →
            lookupField form.inst.attrs f = none → resolvedValue form f = none))
    ∧ lookupField bourneForm.cleaned_data "author" = none
    ∧ resolvedValue bourneForm "author" = some "1"
    ∧ cleanErrors bourneForm bookDB =
        [("title", ["Book with this title already exists."])] := by
  refine ⟨fun form f v => ⟨?_, ?_, ?_⟩, by decide, by decide, by decide⟩
  · intro h
    unfold resolvedValue
    rw [h]
  · intro h
    unfold resolvedValue
    rw [h]
  · intro h h2
    unfold resolvedValue
    rw [h]
    unfold ModelInstance.getattr
    rw [h2]

/-- Claim C4, witness: resolution applied to the Bourne form — the
cleaned `title` wins over the stored one, and the off-form `author`
falls back to the instance attribute. -/
theorem c4_value_resolution_witness :
    resolvedValue bourneForm "title" = some "The Bourne Identity"
    ∧ resolvedValue bourneForm "author" = bourneForm.inst.getattr "author" :=
  ⟨(c4_value_resolution.1 bourneForm "title" (some "The Bourne Identity")).1 (by decide),
    (c4_value_resolution.1 bourneForm "author" none).2.1 (by decide)⟩

/-- Claim C5, counterexample: in the Gadget setup the merged group
`{A, B}` contains the field `B` that resolves to no concrete value
(`none`), yet the group IS still checked — the lookup matches the
stored row whose `B` column is NULL and the error is raised, where the
claim predicts the group would not be considered and no error would be
produced. -/
theorem c5_counterexample :
    resolvedValue nullForm "B" = none
    ∧ "B" ∈ mergedFields (uniqueFieldSets nullMeta) "A"
    ∧ cleanErrors nullForm nullDB =
        [("A", ["Gadget with this A already exists."])]
    ∧ cleanErrors nullForm nullDB ≠ [] := by
  refine ⟨by decide, by decide, by decide, by decide⟩

/-- Claim C5, amended: a uniqueness group is never skipped for lack of a
concrete value; every field of the merged group contributes a filter,
and a field that resolves to no concrete value contributes a null-match
condition — a row satisfies it exactly when its stored value for that
field is NULL. -/
theorem c5_unresolved_field_filters_null :
    (∀ (form : Form) (fieldName : FieldName),
        (lookupKw form fieldName).map Prod.fst =
          mergedFields (uniqueFieldSets form.model) fieldName)
    ∧ (∀ (r : Record) (kw : List (FieldName × Option Value)) (f : FieldName),
        (f, none) ∈ kw → matchesKw r kw = true → r.get f = none) := by
  constructor
  · intro form fieldName
    unfold lookupKw
    rw [List.map_map]
    have hid : (Prod.fst ∘ fun f : FieldName => (f, resolvedValue form f)) = id := by
      funext f
      rfl
    rw [hid, List.map_id]
  · intro r kw f hin hm
    exact matchesKw_get r kw f none hm hin

/-- Claim C5, witness: the NULL filter applied to the Gadget row — the
unresolvable field `B` is part of the kwargs with value `none`, the row
matches, and indeed its stored `B` is NULL. -/
theorem c5_unresolved_field_filters_null_witness :
    nullRecord.get "B" = none :=
  c5_unresolved_field_filters_null.2 nullRecord (lookupKw nullForm "A") "B"
    (by decide) (by decide)

/-- Claim C6: the errors captured from the super clean step and the
uniqueness findings are merged into one field-keyed mapping (the
accumulated dict equals the captured dict with every uniqueness
violation message appended in turn), and the clean step raises exactly
when that mapping is non-empty, carrying exactly that mapping; there is
no other error path. -/
theorem c6_error_accumulation :
    ∀ (form : Form) (db : DB),
      cleanErrors form db =
          applyMessages form.superErrors (uniqueViolations form db)
      ∧ (clean form db = Except.ok () ↔ cleanErrors form db = [])
      ∧ (∀ e, clean form db = Except.error e →
          e = cleanErrors form db ∧ e ≠ []) := by
  intro form db
  refine ⟨cleanErrors_eq_applyMessages form db, ?_, ?_⟩
  · by_cases h : cleanErrors form db = [] <;> simp [clean, h]
  · intro e he
    by_cases h : cleanErrors form db = [] <;> simp [clean, h] at he
    exact ⟨he.symm, by rw [he] at h; exact h⟩

/-- Claim C6, witness: the Bourne form whose rrp failed per-field
validation (captured super error) and whose title clashes — the raised
error carries both messages in one mapping. -/
theorem c6_error_accumulation_witness :
    (["Ensure that there are no more than 3 digits before the decimal point."] ≠ ([] : List String))
    ∧ ([("rrp", ["Ensure that there are no more than 3 digits before the decimal point."]),
        ("title", ["Book with this title already exists."])] =
          cleanErrors bourneBadRrpForm bookDB
        ∧ [("rrp", ["Ensure that there are no more than 3 digits before the decimal point."]),
            ("title", ["Book with this title already exists."])] ≠
            ([] : List (FieldName × List String))) :=
  ⟨by decide,
    (c6_error_accumulation bourneBadRrpForm bookDB).2.2
      [("rrp", ["Ensure that there are no more than 3 digits before the decimal point."]),
        ("title", ["Book with this title already exists."])] (by rfl)⟩

/-- Claim C7, counterexample: the `model` interpolation parameter is the
form object, not the wrapped entity instance — with a template that
projects that parameter, the appended message is the display string of
the form (`WIDGET_FORM`), which differs from the interpolation the
claim describes (built from the instance, `WIDGET_INSTANCE`). -/
theorem c7_counterexample :
    cleanErrors probeForm probeDB = [("A", ["WIDGET_FORM"])]
    ∧ uniqueMessage probeForm (probeMeta.get_field "A") = "WIDGET_FORM"
    ∧ claimedUniqueMessage probeForm (probeMeta.get_field "A") = "WIDGET_INSTANCE"
    ∧ uniqueMessage probeForm (probeMeta.get_field "A") ≠
        claimedUniqueMessage probeForm (probeMeta.get_field "A") := by
  refine ⟨by decide, by decide, by decide, by decide⟩

/-- Claim C7, amended: the appended message is the unique error template
of the triggering field interpolated with the FORM object (under the
`model` key), the entity type, the display-cased type name and the field
display label; with the default Django template (which reads only the
type name and label) the message is identical to the native
duplicate-key message, as in the Book scenario. -/
theorem c7_message_construction :
    (∀ (form : Form) (field : ModelField),
        uniqueMessage form field =
          field.error_message_unique
            { model := form.repr
              model_class := form.model.class_name
              model_name := capfirst form.model.verbose_name
              field_label := field.verbose_name })
    ∧ capfirst bookMeta.verbose_name = "Book"
    ∧ defaultUniqueTemplate
        { model := "BookForm bound"
          model_class := "Book"
          model_name := "Book"
          field_label := "title" } = "Book with this title already exists."
    ∧ cleanErrors bourneForm bookDB =
        [("title", ["Book with this title already exists."])] := by
  exact ⟨fun form field => rfl, by decide, by decide, by decide⟩

/-- Claim C8, counterexample: on the Magazine form exposing every field
of the `(title, publisher)` constraint, the clean pass issues two
existence queries — one per participating form field — not exactly one
per invocation. -/
theorem c8_counterexample :
    (cleanRun magAllFieldsForm magDB).2 = 2
    ∧ participatingFields magAllFieldsForm.fields
        (uniqueFieldSets magAllFieldsForm.model) = ["title", "publisher"]
    ∧ (2 : Nat) ≠ 1 := by
  refine ⟨by decide, by decide, by decide⟩

/-- Claim C8, amended: per validation invocation the loop issues exactly
one read-only existence query per distinct form field that participates
in a uniqueness group (the length of the participating-field list), and
the embedding has no write operation on the store. -/
theorem c8_one_query_per_participating_field :
    ∀ (form : Form) (db : DB),
      (cleanRun form db).2 =
        (participatingFields form.fields (uniqueFieldSets form.model)).length :=
  cleanRun_queries

/-- Claim C9: in one validation pass the mixin appends at most one
uniqueness message per bound form field — the violation trace carries no
duplicate field key, and the final error dict is the captured super
errors with exactly that trace applied. -/
theorem c9_at_most_one_message_per_field :
    ∀ (form : Form) (db : DB),
      ((uniqueViolations form db).map Prod.fst).Nodup
      ∧ cleanErrors form db =
          applyMessages form.superErrors (uniqueViolations form db) := by
  intro form db
  constructor
  · exact (violationsOf_map_fst_sublist _ form _).nodup
      (nodup_participatingFields form.fields (uniqueFieldSets form.model))
  · exact cleanErrors_eq_applyMessages form db

/-- Claim C10: every field the uniqueness check itself reports is a
bound form field, and consequently every key of the final error dict is
either a key of the captured super errors or a bound form field — a
constraint field not exposed on the form never becomes an error key. -/
theorem c10_errors_only_on_form_fields :
    ∀ (form : Form) (db : DB) (f : FieldName),
      (f ∈ (uniqueViolations form db).map Prod.fst → f ∈ form.fields)
      ∧ (f ∈ (cleanErrors form db).map Prod.fst →
          f ∈ form.superErrors.map Prod.fst ∨ f ∈ form.fields) := by
  intro form db f
  have hpart : f ∈ (uniqueViolations form db).map Prod.fst → f ∈ form.fields := by
    intro hf
    have hsub := (violationsOf_map_fst_sublist (excludePk db form.inst.pk) form
      (participatingFields form.fields (uniqueFieldSets form.model))).subset
    exact ((mem_participatingFields form.fields (uniqueFieldSets form.model) f).1
      (hsub hf)).1
  refine ⟨hpart, ?_⟩
  intro hf
  rw [cleanErrors_eq_applyMessages] at hf
  rcases mem_keys_applyMessages _ _ f hf with h1 | h2
  · exact Or.inl h1
  · exact Or.inr (hpart h2)

/-- Claim C10, witness: in the Bourne title-clash run, `title` is the
reported field and it is indeed one of the bound form fields. -/
theorem c10_errors_only_on_form_fields_witness :
    "title" ∈ bourneForm.fields :=
  (c10_errors_only_on_form_fields bourneForm bookDB "title").1 (by decide)
